import Mathlib

/-!
# Verification of `scripts/process_sports.py` (Proyecto-Deportivo)

Shallow embedding of the sports-team batch pipeline:
fetch → translate → summarize → export.  External backends (TheSportsDB
HTTP API, googletrans, the OpenAI chat client, the sumy TextRank
summarizer, `os.makedirs`, pandas CSV writing) are modelled as oracle
functions collected in an `Env`; a Python exception raised by a backend
is an `Except.error` value.  Python functions are translated so that a
`try`/`except` block becomes a `match` on the oracle's result, while a
call *outside* any `try` propagates through the `Except` monad.

Python's `str.split()` (split on runs of whitespace, dropping empties),
`" ".join`, and `str.strip()` are modelled by `pySplit`, `pyJoin`, and
`pyStrip` below.
-/

namespace Deportivo

/-- `true` when the character is not whitespace (the predicate kept by
Python's `str.split()`). -/
def nonWs (c : Char) : Bool := !c.isWhitespace

/-- Fuel-indexed worker for whitespace word-splitting over a character
list.  Fuel at least the list length gives the real answer; the fuel
only makes the recursion structural. -/
def wordsF : Nat → List Char → List (List Char)
  | 0, _ => []
  | _ + 1, [] => []
  | fuel + 1, c :: cs =>
    if c.isWhitespace then wordsF fuel cs
    else (c :: cs.takeWhile nonWs) :: wordsF fuel (cs.dropWhile nonWs)

/-- The whitespace-separated words of a character list, as produced by
Python's `str.split()` with no arguments. -/
def wordsOf (l : List Char) : List (List Char) := wordsF l.length l

/-- Model of Python `s.split()`: the whitespace-separated words of `s`. -/
def pySplit (s : String) : List String := (wordsOf s.data).map String.mk

/-- Characters of `" ".join(ws)`. -/
def joinChars : List (List Char) → List Char
  | [] => []
  | [w] => w
  | w :: ws => w ++ ' ' :: joinChars ws

/-- Model of Python `" ".join(ws)`. -/
def pyJoin (ws : List String) : String := String.mk (joinChars (ws.map String.data))

/-- Model of Python `s.strip()`: drop leading and trailing whitespace. -/
def pyStrip (s : String) : String :=
  String.mk (((s.data.dropWhile Char.isWhitespace).reverse.dropWhile
      Char.isWhitespace).reverse)

/-- Number of whitespace-separated words of a string (`len(s.split())`). -/
def countWords (s : String) : Nat := (pySplit s).length

/-- `s` ends with the string `t` (on the underlying characters). -/
def strEndsWith (s t : String) : Prop := t.data <:+ s.data

instance (s t : String) : Decidable (strEndsWith s t) :=
  inferInstanceAs (Decidable (t.data <:+ s.data))

/-- A word as produced by splitting: nonempty and free of whitespace. -/
def WordlikeC (w : List Char) : Prop :=
  w ≠ [] ∧ ∀ c ∈ w, c.isWhitespace = false

/-- String-level `WordlikeC`. -/
def Wordlike (w : String) : Prop := WordlikeC w.data

theorem length_dropWhile_le' (p : Char → Bool) (l : List Char) :
    (l.dropWhile p).length ≤ l.length :=
  (List.dropWhile_suffix p).sublist.length_le

theorem wordsF_congr : ∀ (f₁ : Nat) (l : List Char) (f₂ : Nat),
    l.length ≤ f₁ → l.length ≤ f₂ → wordsF f₁ l = wordsF f₂ l := by
  intro f₁
  induction f₁ with
  | zero =>
    intro l f₂ h₁ _
    have : l = [] := List.eq_nil_of_length_eq_zero (Nat.le_zero.mp h₁)
    subst this
    cases f₂ <;> rfl
  | succ f ih =>
    intro l f₂ h₁ h₂
    cases l with
    | nil => cases f₂ <;> rfl
    | cons c cs =>
      cases f₂ with
      | zero => exact absurd h₂ (by simp)
      | succ f' =>
        simp only [wordsF]
        by_cases hc : c.isWhitespace
        · simp only [hc, if_true]
          exact ih cs f' (Nat.le_of_succ_le_succ h₁) (Nat.le_of_succ_le_succ h₂)
        · simp only [hc, if_false]
          have hd : (cs.dropWhile nonWs).length ≤ cs.length :=
            length_dropWhile_le' nonWs cs
          exact congrArg (List.cons (c :: cs.takeWhile nonWs))
            (ih (cs.dropWhile nonWs) f'
              (Nat.le_trans hd (Nat.le_of_succ_le_succ h₁))
              (Nat.le_trans hd (Nat.le_of_succ_le_succ h₂)))

theorem wordsOf_nil : wordsOf [] = [] := rfl

theorem wordsOf_cons (c : Char) (cs : List Char) :
    wordsOf (c :: cs) =
      if c.isWhitespace then wordsOf cs
      else (c :: cs.takeWhile nonWs) :: wordsOf (cs.dropWhile nonWs) := by
  show wordsF (cs.length + 1) (c :: cs) = _
  simp only [wordsF]
  by_cases hc : c.isWhitespace
  · simp [hc, wordsOf]
  · simp only [hc, if_false]
    exact congrArg (List.cons (c :: cs.takeWhile nonWs))
      (wordsF_congr cs.length (cs.dropWhile nonWs)
        (cs.dropWhile nonWs).length (length_dropWhile_le' nonWs cs) (Nat.le_refl _))

theorem wordsF_wordlike : ∀ (fuel : Nat) (l : List Char) (w : List Char),
    w ∈ wordsF fuel l → WordlikeC w := by
  intro fuel
  induction fuel with
  | zero => intro l w h; simp [wordsF] at h
  | succ f ih =>
    intro l w h
    cases l with
    | nil => simp [wordsF] at h
    | cons c cs =>
      simp only [wordsF] at h
      by_cases hc : c.isWhitespace
      · rw [if_pos hc] at h; exact ih cs w h
      · rw [if_neg hc] at h
        rcases List.mem_cons.mp h with heq | hmem
        · subst heq
          refine ⟨by simp, ?_⟩
          intro d hd
          rcases List.mem_cons.mp hd with rfl | hd'
          · simpa using hc
          · have := List.mem_takeWhile_imp hd'
            simpa [nonWs] using this
        · exact ih _ w hmem

theorem wordsOf_wordlike {l w : List Char} (h : w ∈ wordsOf l) : WordlikeC w :=
  wordsF_wordlike l.length l w h

theorem wordsOf_word (w : List Char) (hw : WordlikeC w) : wordsOf w = [w] := by
  obtain ⟨hne, hall⟩ := hw
  cases w with
  | nil => exact absurd rfl hne
  | cons c cs =>
    rw [wordsOf_cons]
    have hc : c.isWhitespace = false := hall c (List.mem_cons_self _ _)
    rw [if_neg (by simp [hc])]
    have htake : cs.takeWhile nonWs = cs := by
      rw [List.takeWhile_eq_self_iff]
      intro x hx
      simp [nonWs, hall x (List.mem_cons_of_mem _ hx)]
    have hdrop : cs.dropWhile nonWs = [] := by
      rw [List.dropWhile_eq_nil_iff]
      intro x hx
      simp [nonWs, hall x (List.mem_cons_of_mem _ hx)]
    rw [htake, hdrop, wordsOf_nil]

theorem wordsOf_word_space (w : List Char) (hw : WordlikeC w) (rest : List Char) :
    wordsOf (w ++ ' ' :: rest) = w :: wordsOf rest := by
  obtain ⟨hne, hall⟩ := hw
  cases w with
  | nil => exact absurd rfl hne
  | cons c cs =>
    rw [List.cons_append, wordsOf_cons]
    have hc : c.isWhitespace = false := hall c (List.mem_cons_self _ _)
    rw [if_neg (by simp [hc])]
    have hcs : ∀ x ∈ cs, nonWs x = true := by
      intro x hx
      simp [nonWs, hall x (List.mem_cons_of_mem _ hx)]
    rw [List.takeWhile_append_of_pos hcs, List.dropWhile_append_of_pos hcs]
    have hsp : (' ' :: rest).takeWhile nonWs = [] := by
      simp [List.takeWhile, nonWs]
    have hsp' : (' ' :: rest).dropWhile nonWs = ' ' :: rest := by
      simp [List.dropWhile, nonWs]
    rw [hsp, hsp', List.append_nil, wordsOf_cons, if_pos (by decide)]

theorem wordsOf_joinChars : ∀ ws : List (List Char),
    (∀ w ∈ ws, WordlikeC w) → wordsOf (joinChars ws) = ws := by
  intro ws
  induction ws with
  | nil => intro _; rfl
  | cons w ws ih =>
    intro hall
    cases ws with
    | nil => exact wordsOf_word w (hall w (List.mem_cons_self _ _))
    | cons w' ws' =>
      show wordsOf (w ++ ' ' :: joinChars (w' :: ws')) = _
      rw [wordsOf_word_space w (hall w (List.mem_cons_self _ _)),
        ih (fun x hx => hall x (List.mem_cons_of_mem _ hx))]

/-- Append `suffix` to the last element of a word list (for the empty
list, the suffix becomes the only word).  Describes what
`" ".join(ws) + "..."` does to the word structure. -/
def appendToLast (suffix : List Char) : List (List Char) → List (List Char)
  | [] => [suffix]
  | [w] => [w ++ suffix]
  | w :: ws => w :: appendToLast suffix ws

/-- String-level `appendToLast`. -/
def appendToLastStr (suffix : String) : List String → List String
  | [] => [suffix]
  | [w] => [w ++ suffix]
  | w :: ws => w :: appendToLastStr suffix ws

theorem joinChars_append_suffix (suffix : List Char) : ∀ ws : List (List Char),
    joinChars ws ++ suffix = joinChars (appendToLast suffix ws) := by
  intro ws
  induction ws with
  | nil => rfl
  | cons w ws ih =>
    cases ws with
    | nil => rfl
    | cons w' ws' =>
      show (w ++ ' ' :: joinChars (w' :: ws')) ++ suffix = _
      rw [List.append_assoc, List.cons_append, ih]
      cases ws' <;> rfl

theorem appendToLast_wordlike {suffix : List Char} (hs : WordlikeC suffix) :
    ∀ ws : List (List Char), (∀ w ∈ ws, WordlikeC w) →
      ∀ w ∈ appendToLast suffix ws, WordlikeC w := by
  intro ws
  induction ws with
  | nil =>
    intro _ w hw
    simp only [appendToLast, List.mem_singleton] at hw
    subst hw; exact hs
  | cons x ws ih =>
    intro hall w hw
    cases ws with
    | nil =>
      simp only [appendToLast, List.mem_singleton] at hw
      subst hw
      obtain ⟨hne, hx⟩ := hall x (List.mem_cons_self _ _)
      refine ⟨by simp [hne], ?_⟩
      intro c hc
      rcases List.mem_append.mp hc with h | h
      · exact hx c h
      · exact hs.2 c h
    | cons y ws' =>
      rcases List.mem_cons.mp hw with rfl | hmem
      · exact hall w (List.mem_cons_self _ _)
      · exact ih (fun z hz => hall z (List.mem_cons_of_mem _ hz)) w hmem

theorem appendToLast_length (suffix : List Char) :
    ∀ ws : List (List Char), ws ≠ [] →
      (appendToLast suffix ws).length = ws.length := by
  intro ws
  induction ws with
  | nil => intro h; exact absurd rfl h
  | cons x ws ih =>
    intro _
    cases ws with
    | nil => rfl
    | cons y ws' =>
      show (x :: appendToLast suffix (y :: ws')).length = _
      simp [ih (by simp)]

theorem appendToLast_concat (suffix : List Char) :
    ∀ (ws : List (List Char)) (w : List Char),
      appendToLast suffix (ws ++ [w]) = ws ++ [w ++ suffix] := by
  intro ws
  induction ws with
  | nil => intro w; rfl
  | cons x ws ih =>
    intro w
    cases ws with
    | nil => rfl
    | cons y ws' =>
      show x :: appendToLast suffix ((y :: ws') ++ [w]) = _
      rw [ih w]
      rfl

theorem map_mk_appendToLast (suffix : List Char) : ∀ ws : List String,
    (appendToLast suffix (ws.map String.data)).map String.mk =
      appendToLastStr (String.mk suffix) ws := by
  intro ws
  induction ws with
  | nil => rfl
  | cons w ws ih =>
    cases ws with
    | nil => rfl
    | cons w' ws' =>
      show String.mk w.data ::
          (appendToLast suffix ((w' :: ws').map String.data)).map String.mk = _
      rw [ih]
      rfl

theorem mk_data (s : String) : String.mk s.data = s := rfl

theorem map_mk_map_data (ws : List String) :
    (ws.map String.data).map String.mk = ws := by
  induction ws with
  | nil => rfl
  | cons w ws ih => simp [ih, mk_data]

/-- String-level round trip: splitting the space-join of words gives
back the words. -/
theorem pySplit_pyJoin (ws : List String) (h : ∀ w ∈ ws, Wordlike w) :
    pySplit (pyJoin ws) = ws := by
  unfold pySplit pyJoin
  rw [show (String.mk (joinChars (ws.map String.data))).data
      = joinChars (ws.map String.data) from rfl]
  rw [wordsOf_joinChars (ws.map String.data) (by
    intro w hw
    rcases List.mem_map.mp hw with ⟨x, hx, rfl⟩
    exact h x hx)]
  exact map_mk_map_data ws

theorem dots_wordlike : WordlikeC "...".data := by
  constructor
  · decide
  · decide

/-- Splitting `" ".join(ws) + "..."` attaches the dots to the final word
(or yields `["..."]` when `ws` is empty). -/
theorem pySplit_pyJoin_dots (ws : List String) (h : ∀ w ∈ ws, Wordlike w) :
    pySplit (pyJoin ws ++ "...") = appendToLastStr "..." ws := by
  unfold pySplit
  rw [show (pyJoin ws ++ "...").data = joinChars (ws.map String.data) ++ "...".data by
    rw [String.data_append]; rfl]
  rw [joinChars_append_suffix]
  rw [wordsOf_joinChars _ (appendToLast_wordlike dots_wordlike _ (by
    intro w hw
    rcases List.mem_map.mp hw with ⟨x, hx, rfl⟩
    exact h x hx))]
  exact map_mk_appendToLast _ ws

theorem pySplit_wordlike {s : String} {w : String} (h : w ∈ pySplit s) :
    Wordlike w := by
  unfold pySplit at h
  rcases List.mem_map.mp h with ⟨x, hx, rfl⟩
  exact wordsOf_wordlike hx

theorem appendToLastStr_length (suffix : String) :
    ∀ ws : List String, ws ≠ [] →
      (appendToLastStr suffix ws).length = ws.length := by
  intro ws
  induction ws with
  | nil => intro h; exact absurd rfl h
  | cons x ws ih =>
    intro _
    cases ws with
    | nil => rfl
    | cons y ws' =>
      show (x :: appendToLastStr suffix (y :: ws')).length = _
      simp [ih (by simp)]

/-- `" ".join(ws) + "..."` ends with the literal marker. -/
theorem pyJoin_dots_endsWith (ws : List String) :
    strEndsWith (pyJoin ws ++ "...") "..." := by
  unfold strEndsWith
  rw [String.data_append]
  exact List.suffix_append _ _


/-! ## Data model and environment -/

/-- Errors carried by raised-and-caught Python exceptions. -/
abbrev Err := String

/-- The first element of the API's `teams` array, with `.get`-style
optional fields (`none` = key absent). -/
structure TeamInfo where
  strTeam : Option String
  strSport : Option String
  strLeague : Option String
  intFormedYear : Option String
  strStadium : Option String
  strDescriptionEN : Option String
deriving Repr, DecidableEq

/-- One output row, as appended to `results` in `process_teams`. -/
structure TeamRecord where
  equipo : String
  deporte : String
  liga : String
  anioFundacion : String
  estadio : String
  descripcionEs : String
  resumen : String
deriving Repr, DecidableEq

/-- Calls made by `translate_text` to its backends. -/
inductive TransEffect
  | googletrans_call (text dest : String)
  | openai_call (text : String)
deriving Repr, DecidableEq

/-- Effects of `save_to_csv`. -/
inductive FsEffect
  | print_msg (msg : String)
  | makedirs_call (dir : String)
  | to_csv_call (path : String) (rows : Nat)
deriving Repr, DecidableEq

/-- Capability flags and external backends of the script.  Each oracle
returns `Except.error` to model a raised Python exception.
* `googletrans t d` — `Translator().translate(t, dest=d).text`
* `openai_summary t wl` — chat-completion content for the summary prompt
* `openai_translate t` — chat-completion content for the translate prompt
* `text_rank t n` — the `str(s)` sentence list from `TextRankSummarizer`
* `fetch t` — `requests.get(...).json()["teams"]` for team `t`
  (`none` = falsy `data` or falsy/absent `teams` key)
* `dirname`, `makedirs`, `make_dataframe`, `to_csv` — `os.path.dirname`,
  `os.makedirs`, `pd.DataFrame`, `df.to_csv`. -/
structure Env where
  translator_available : Bool
  use_openai : Bool
  ai_client_present : Bool
  googletrans : String → String → Except Err String
  openai_summary : String → Nat → Except Err String
  openai_translate : String → Except Err String
  text_rank : String → Nat → Except Err (List String)
  fetch : String → Except Err (Option (List TeamInfo))
  dirname : String → String
  makedirs : String → Except Err Unit
  make_dataframe : List TeamRecord → Except Err Unit
  to_csv : List TeamRecord → String → Except Err Unit

/-! ## The translated functions -/

/-- The truncation step appearing verbatim in both `summarise_text_rank`
and `summarise_with_ai`:
`words = s.split(); if len(words) > word_limit: return " ".join(words[:word_limit]) + "..."`. -/
def truncate_words (s : String) (word_limit : Nat) : String :=
  let words := pySplit s
  if words.length > word_limit then pyJoin (words.take word_limit) ++ "..." else s

/-- `summarise_text_rank` (lines 52–68): extractive TextRank summary,
then truncation; blank input or any exception yields the literal
fallback `"Resumen no disponible"`. -/
def summarise_text_rank (env : Env) (text : String) (sentences_count : Nat := 4)
    (word_limit : Nat := 50) : Except Err String :=
  if text = "" || pyStrip text = "" then Except.ok "Resumen no disponible"
  else
    match env.text_rank text sentences_count with
    | Except.error _ => Except.ok "Resumen no disponible"
    | Except.ok sents =>
      let summary_text := pyStrip (pyJoin sents)
      Except.ok (truncate_words summary_text word_limit)

/-- `summarise_with_ai` (lines 70–107): `None` when OpenAI is not
configured, input is blank, or the call raises; otherwise the stripped
completion content, truncated to `word_limit` words. -/
def summarise_with_ai (env : Env) (text : String) (word_limit : Nat := 50) :
    Except Err (Option String) :=
  if !env.use_openai || !env.ai_client_present then Except.ok none
  else if text = "" || pyStrip text = "" then Except.ok none
  else
    match env.openai_summary text word_limit with
    | Except.error _ => Except.ok none
    | Except.ok content =>
      let summary := pyStrip content
      Except.ok (some (truncate_words summary word_limit))

/-- `translate_text` (lines 109–143): empty input returns `""` with no
backend call; otherwise googletrans is tried, then the OpenAI fallback,
and if everything fails the original text is returned.  The second
component records the backend calls actually made. -/
def translate_text (env : Env) (text : String) (dest : String := "es") :
    Except Err String × List TransEffect :=
  if text = "" then (Except.ok "", [])
  else
    let gStep : Option String × List TransEffect :=
      if env.translator_available then
        match env.googletrans text dest with
        | Except.ok t => (some t, [TransEffect.googletrans_call text dest])
        | Except.error _ => (none, [TransEffect.googletrans_call text dest])
      else (none, [])
    match gStep with
    | (some t, eff) => (Except.ok t, eff)
    | (none, eff) =>
      if env.use_openai && env.ai_client_present then
        match env.openai_translate text with
        | Except.ok content =>
          (Except.ok (pyStrip content), eff ++ [TransEffect.openai_call text])
        | Except.error _ =>
          (Except.ok text, eff ++ [TransEffect.openai_call text])
      else (Except.ok text, eff)

/-- The summarization stage as composed inside the loop of
`process_teams` (lines 173–181): try the AI summary when OpenAI is on,
fall back to TextRank when it yields `None`. -/
def summarize_pipeline (env : Env) (text : String) (word_limit : Nat) :
    Except Err String := do
  let aiRes ← (if env.use_openai then summarise_with_ai env text word_limit
               else pure none)
  match aiRes with
  | some s => pure s
  | none => summarise_text_rank env text 4 word_limit

/-- The body of one iteration of the loop in `process_teams`
(lines 150–193), inside the per-team `try`: `Except.error` models an
exception reaching the per-team `except`, `Except.ok none` an explicit
skip (`continue`), `Except.ok (some r)` a recorded row. -/
def process_team_body (env : Env) (team : String) : Except Err (Option TeamRecord) := do
  let data ← env.fetch team
  match data with
  | none => pure none
  | some [] => pure none
  | some (team_info :: _) =>
    let name := team_info.strTeam.getD "N/A"
    let sport := team_info.strSport.getD "N/A"
    let league := team_info.strLeague.getD "N/A"
    let year := team_info.intFormedYear.getD "N/A"
    let stadium := team_info.strStadium.getD "N/A"
    match team_info.strDescriptionEN with
    | none => pure none
    | some description_en =>
      if description_en = "" || pyStrip description_en = "" then pure none
      else do
        let description_es ← (translate_text env description_en "es").1
        let resumen ← summarize_pipeline env description_es 50
        pure (some { equipo := name, deporte := sport, liga := league,
                     anioFundacion := year, estadio := stadium,
                     descripcionEs := description_es, resumen := resumen })

/-- One iteration of `process_teams` including its `except: continue`. -/
def process_team_one (env : Env) (team : String) : Option TeamRecord :=
  match process_team_body env team with
  | Except.error _ => none
  | Except.ok r => r

/-- `process_teams` (lines 147–198): fold the loop over the team list,
appending one record per successful iteration. -/
def process_teams (env : Env) : List String → List TeamRecord
  | [] => []
  | team :: rest =>
    match process_team_one env team with
    | none => process_teams env rest
    | some r => r :: process_teams env rest

/-- `save_to_csv` (lines 200–210).  The `os.makedirs` call sits *outside*
the `try` block, so its failure escapes as `Except.error`; DataFrame
construction and `to_csv` failures are caught and only logged.  The
second component is the ordered effect trace. -/
def save_to_csv (env : Env) (items : List TeamRecord)
    (path : String := "data/teams_list.csv") : Except Err Unit × List FsEffect :=
  if items.isEmpty then (Except.ok (), [FsEffect.print_msg "No rows to save."])
  else
    match env.makedirs (env.dirname path) with
    | Except.error e => (Except.error e, [FsEffect.makedirs_call (env.dirname path)])
    | Except.ok _ =>
      match env.make_dataframe items with
      | Except.error _ =>
        (Except.ok (), [FsEffect.makedirs_call (env.dirname path),
                        FsEffect.print_msg "Error saving CSV"])
      | Except.ok _ =>
        match env.to_csv items path with
        | Except.error _ =>
          (Except.ok (), [FsEffect.makedirs_call (env.dirname path),
                          FsEffect.to_csv_call path items.length,
                          FsEffect.print_msg "Error saving CSV"])
        | Except.ok _ =>
          (Except.ok (), [FsEffect.makedirs_call (env.dirname path),
                          FsEffect.to_csv_call path items.length,
                          FsEffect.print_msg "Saved CSV"])

/-! ## Totality of the fallback chain -/

theorem summarise_text_rank_ok (env : Env) (text : String) (sc wl : Nat) :
    ∃ s, summarise_text_rank env text sc wl = Except.ok s := by
  unfold summarise_text_rank
  split
  · exact ⟨_, rfl⟩
  · split
    · exact ⟨_, rfl⟩
    · exact ⟨_, rfl⟩

theorem summarise_with_ai_ok (env : Env) (text : String) (wl : Nat) :
    ∃ o, summarise_with_ai env text wl = Except.ok o := by
  unfold summarise_with_ai
  split
  · exact ⟨_, rfl⟩
  · split
    · exact ⟨_, rfl⟩
    · split
      · exact ⟨_, rfl⟩
      · exact ⟨_, rfl⟩

theorem summarize_pipeline_ok (env : Env) (text : String) (wl : Nat) :
    ∃ s, summarize_pipeline env text wl = Except.ok s := by
  unfold summarize_pipeline
  by_cases h : env.use_openai
  · obtain ⟨o, ho⟩ := summarise_with_ai_ok env text wl
    rw [if_pos h, ho]
    cases o with
    | none =>
      obtain ⟨s, hs⟩ := summarise_text_rank_ok env text 4 wl
      exact ⟨s, by simp [Bind.bind, Except.bind, hs]⟩
    | some s => exact ⟨s, by simp [Bind.bind, Except.bind, pure, Except.pure]⟩
  · rw [if_neg h]
    obtain ⟨s, hs⟩ := summarise_text_rank_ok env text 4 wl
    exact ⟨s, by simp [Bind.bind, Except.bind, pure, Except.pure, hs]⟩

theorem translate_text_ok (env : Env) (text dest : String) :
    ∃ s eff, translate_text env text dest = (Except.ok s, eff) := by
  unfold translate_text
  split
  · exact ⟨_, _, rfl⟩
  · by_cases ht : env.translator_available
    · rw [if_pos ht]
      cases hg : env.googletrans text dest with
      | ok t => exact ⟨_, _, rfl⟩
      | error e =>
        simp only []
        split
        · split
          · exact ⟨_, _, rfl⟩
          · exact ⟨_, _, rfl⟩
        · exact ⟨_, _, rfl⟩
    · rw [if_neg ht]
      simp only []
      split
      · split
        · exact ⟨_, _, rfl⟩
        · exact ⟨_, _, rfl⟩
      · exact ⟨_, _, rfl⟩

/-! ## Word-count facts about the truncation step -/

theorem truncate_words_split {c : String} {wl : Nat} (hc : wl < (pySplit c).length) :
    pySplit (truncate_words c wl) = appendToLastStr "..." ((pySplit c).take wl) := by
  unfold truncate_words
  rw [if_pos (by simpa using hc)]
  exact pySplit_pyJoin_dots _ (fun w hw => pySplit_wordlike (List.take_subset _ _ hw))

theorem truncate_words_endsWith {c : String} {wl : Nat}
    (hc : wl < (pySplit c).length) :
    strEndsWith (truncate_words c wl) "..." := by
  unfold truncate_words
  rw [if_pos (by simpa using hc)]
  exact pyJoin_dots_endsWith _

theorem truncate_words_count_of_lt {c : String} {wl : Nat} (h1 : 1 ≤ wl)
    (hc : wl < (pySplit c).length) :
    countWords (truncate_words c wl) = wl := by
  show (pySplit (truncate_words c wl)).length = wl
  rw [truncate_words_split hc]
  rw [appendToLastStr_length _ _ (by
    intro hnil
    rw [List.take_eq_nil_iff] at hnil
    rcases hnil with h | h
    · subst h; exact absurd h1 (by simp)
    · rw [h] at hc; simp at hc)]
  rw [List.length_take]
  omega

theorem truncate_words_count_le (c : String) (wl : Nat) (h1 : 1 ≤ wl) :
    countWords (truncate_words c wl) ≤ wl := by
  by_cases hc : wl < (pySplit c).length
  · exact Nat.le_of_eq (truncate_words_count_of_lt h1 hc)
  · unfold truncate_words
    rw [if_neg (by simpa using hc)]
    show (pySplit c).length ≤ wl
    omega

theorem resumen_no_disponible_words : countWords "Resumen no disponible" = 3 := by
  decide

theorem summarise_text_rank_count (env : Env) (text : String) (sc wl : Nat)
    (h3 : 3 ≤ wl) :
    ∀ s, summarise_text_rank env text sc wl = Except.ok s → countWords s ≤ wl := by
  intro s h
  unfold summarise_text_rank at h
  split at h
  · cases h
    rw [resumen_no_disponible_words]
    omega
  · split at h
    · cases h
      rw [resumen_no_disponible_words]
      omega
    · cases h
      exact truncate_words_count_le _ wl (by omega)

theorem summarise_with_ai_count (env : Env) (text : String) (wl : Nat)
    (h1 : 1 ≤ wl) :
    ∀ s, summarise_with_ai env text wl = Except.ok (some s) → countWords s ≤ wl := by
  intro s h
  unfold summarise_with_ai at h
  split at h
  · cases h
  · split at h
    · cases h
    · split at h
      · cases h
      · cases h
        exact truncate_words_count_le _ wl h1

theorem summarize_pipeline_count (env : Env) (text : String) (wl : Nat)
    (h3 : 3 ≤ wl) :
    ∀ s, summarize_pipeline env text wl = Except.ok s → countWords s ≤ wl := by
  intro s h
  unfold summarize_pipeline at h
  by_cases ho : env.use_openai
  · rw [if_pos ho] at h
    obtain ⟨o, hoo⟩ := summarise_with_ai_ok env text wl
    rw [hoo] at h
    simp only [Bind.bind, Except.bind] at h
    cases o with
    | none => exact summarise_text_rank_count env text 4 wl h3 s h
    | some t =>
      simp only [pure, Except.pure] at h
      cases h
      exact summarise_with_ai_count env text wl (by omega) _ hoo
  · rw [if_neg ho] at h
    simp only [Bind.bind, Except.bind, pure, Except.pure] at h
    exact summarise_text_rank_count env text 4 wl h3 s h

/-! ## Structure of the processing loop -/

theorem process_teams_cons (env : Env) (t : String) (rest : List String) :
    process_teams env (t :: rest) =
      match process_team_one env t with
      | none => process_teams env rest
      | some r => r :: process_teams env rest := rfl

theorem process_teams_append (env : Env) : ∀ xs ys : List String,
    process_teams env (xs ++ ys) = process_teams env xs ++ process_teams env ys := by
  intro xs ys
  induction xs with
  | nil => rfl
  | cons t xs ih =>
    rw [List.cons_append, process_teams_cons, process_teams_cons]
    cases process_team_one env t with
    | none => simpa using ih
    | some r => simp [ih]

theorem process_teams_filterMap (env : Env) : ∀ teams : List String,
    process_teams env teams = teams.filterMap (process_team_one env) := by
  intro teams
  induction teams with
  | nil => rfl
  | cons t rest ih =>
    rw [process_teams_cons, List.filterMap_cons]
    cases process_team_one env t with
    | none => simpa using ih
    | some r => simpa using ih

theorem process_team_body_fields (env : Env) (team : String) (ti : TeamInfo)
    (rest : List TeamInfo) (d : String)
    (hf : env.fetch team = Except.ok (some (ti :: rest)))
    (hd : ti.strDescriptionEN = some d)
    (hne : pyStrip d ≠ "") :
    ∃ des res, process_team_body env team =
      Except.ok (some { equipo := ti.strTeam.getD "N/A",
                        deporte := ti.strSport.getD "N/A",
                        liga := ti.strLeague.getD "N/A",
                        anioFundacion := ti.intFormedYear.getD "N/A",
                        estadio := ti.strStadium.getD "N/A",
                        descripcionEs := des, resumen := res }) := by
  have hde : d ≠ "" := by
    intro h
    subst h
    exact hne rfl
  obtain ⟨des, eff, htr⟩ := translate_text_ok env d "es"
  obtain ⟨res, hsum⟩ := summarize_pipeline_ok env des 50
  refine ⟨des, res, ?_⟩
  unfold process_team_body
  rw [hf]
  simp only [Bind.bind, Except.bind, hd]
  rw [if_neg (by simp [hde, hne])]
  rw [htr]
  simp only [hsum, pure, Except.pure]


/-! ## Concrete environments, team data and records -/

/-- A team object with some fields present and some absent. -/
def tiArsenal : TeamInfo :=
  { strTeam := some "Arsenal", strSport := some "Soccer", strLeague := none,
    intFormedYear := some "1886", strStadium := none,
    strDescriptionEN := some "Arsenal Football Club is a club." }

/-- A sample output row. -/
def recArsenal : TeamRecord :=
  { equipo := "Arsenal", deporte := "Soccer", liga := "English Premier League",
    anioFundacion := "1886", estadio := "Emirates Stadium",
    descripcionEs := "descripcion", resumen := "resumen" }

/-- Every optional capability off, every oracle raising, filesystem fine. -/
def envBase : Env :=
  { translator_available := false, use_openai := false, ai_client_present := false,
    googletrans := fun _ _ => Except.error "unavailable",
    openai_summary := fun _ _ => Except.error "unavailable",
    openai_translate := fun _ => Except.error "unavailable",
    text_rank := fun _ _ => Except.error "unavailable",
    fetch := fun _ => Except.error "network down",
    dirname := fun _ => "data",
    makedirs := fun _ => Except.ok (),
    make_dataframe := fun _ => Except.ok (),
    to_csv := fun _ _ => Except.ok () }

/-- `envBase` with a working TextRank oracle. -/
def envTextRank : Env := { envBase with text_rank := fun _ _ => Except.ok ["x"] }

/-- `envBase` with a working googletrans backend that always answers "X". -/
def envGoogletrans : Env :=
  { envBase with translator_available := true,
                 googletrans := fun _ _ => Except.ok "X" }

/-- `envBase` with an output directory that cannot be created. -/
def envNoPerm : Env :=
  { envBase with makedirs := fun _ => Except.error "permission denied" }

/-- `envBase` with an API that knows every team except "Bad". -/
def envFetch : Env :=
  { envBase with
      fetch := fun t => if t = "Bad" then Except.ok none
                        else Except.ok (some [tiArsenal]),
      text_rank := fun _ _ => Except.ok ["Resumen."] }

/-! ## The claims -/

/-- C1, amended.  As frozen ("for every wordLimit") the claim is false:
see `claim_C1_counterexample`.  Amended to word limits ≥ 3 (a truncated
result occupies `wordLimit` tokens only when `wordLimit ≥ 1`, and the
fallback string "Resumen no disponible" occupies 3), the Summarizer's
output — whichever branch produced the candidate — has at most
`wordLimit` whitespace-separated words, and whenever the truncation step
fires on a candidate `c` its result ends with the literal `"..."`. -/
theorem claim_C1_amended (env : Env) (text : String) (wl : Nat) (s c : String)
    (h3 : 3 ≤ wl) (hok : summarize_pipeline env text wl = Except.ok s)
    (hc : wl < countWords c) :
    countWords s ≤ wl ∧ strEndsWith (truncate_words c wl) "..." :=
  ⟨summarize_pipeline_count env text wl h3 s hok, truncate_words_endsWith hc⟩

/-- C1 counterexample: with TextRank producing the one-word summary "x"
and `wordLimit = 0`, the Summarizer returns `"..."`, which has one
whitespace-separated word — more than `wordLimit`. -/
theorem claim_C1_counterexample :
    summarize_pipeline envTextRank "x" 0 = Except.ok "..." ∧
    ¬ countWords "..." ≤ 0 := ⟨rfl, by decide⟩

/-- C1 witness: at `wordLimit = 3` the cap and the marker hold on
concrete inputs. -/
theorem claim_C1_witness :
    countWords "x" ≤ 3 ∧ strEndsWith (truncate_words "a b c d e" 3) "..." :=
  claim_C1_amended envTextRank "x" 3 "x" "a b c d e" (by decide) rfl (by decide)

/-- C2, amended.  As frozen the claim is false: `os.makedirs` runs
*outside* the `try` block of `save_to_csv`, so a failure to create the
output directory (e.g. missing write permission) propagates out of
`save_to_csv` — see `claim_C2_counterexample`.  Amended: once directory
creation succeeds, every failure while building the DataFrame or
writing the CSV is caught, and no exception propagates. -/
theorem claim_C2_amended (env : Env) (items : List TeamRecord) (path : String)
    (h : (env.makedirs (env.dirname path)).isOk = true) :
    (save_to_csv env items path).1 = Except.ok () := by
  unfold save_to_csv
  split
  · rfl
  · cases hm : env.makedirs (env.dirname path) with
    | error e =>
      rw [hm] at h
      exact absurd h (by simp [Except.isOk, Except.toBool])
    | ok u =>
      simp only [hm]
      split
      · rfl
      · split
        · rfl
        · rfl

/-- C2 counterexample: with `os.makedirs` raising (no write permission
on the parent directory) and a nonempty record list, the exception
escapes `save_to_csv` instead of being caught and logged. -/
theorem claim_C2_counterexample :
    (save_to_csv envNoPerm [recArsenal] "data/teams_list.csv").1 =
      Except.error "permission denied" := rfl

/-- C2 witness: with a creatable directory, `save_to_csv` returns
normally even though the CSV writer may fail. -/
theorem claim_C2_witness :
    (save_to_csv envBase [recArsenal] "data/teams_list.csv").1 = Except.ok () :=
  claim_C2_amended envBase [recArsenal] "data/teams_list.csv" rfl

/-- C3, amended.  As frozen the claim is false: only the *empty* string
short-circuits (`if not text`); a whitespace-only input is truthy in
Python, so backends are called for it — see `claim_C3_counterexample`.
Amended: for the empty string the Translator returns exactly `""` and
makes no call to either backend. -/
theorem claim_C3_amended (env : Env) (dest : String) :
    translate_text env "" dest = (Except.ok "", []) := rfl

/-- C3 counterexample: the blank input `" "` is not short-circuited —
the googletrans backend is called on it and its answer (here "X", not
`""`) is returned. -/
theorem claim_C3_counterexample :
    pyStrip " " = "" ∧
    translate_text envGoogletrans " " "es" =
      (Except.ok "X", [TransEffect.googletrans_call " " "es"]) ∧
    (Except.ok "X" : Except Err String) ≠ Except.ok "" := by
  refine ⟨rfl, rfl, ?_⟩
  simp

/-- C4 (confirmed): when the API answers with a matching team whose
English description is non-blank, the produced record's five literal
fields are exactly the team object's fields, with the literal "N/A"
substituted for each absent field. -/
theorem claim_C4 (env : Env) (team : String) (ti : TeamInfo)
    (rest : List TeamInfo) (d : String)
    (hf : env.fetch team = Except.ok (some (ti :: rest)))
    (hd : ti.strDescriptionEN = some d)
    (hne : pyStrip d ≠ "") :
    (process_team_one env team).map TeamRecord.equipo
        = some (ti.strTeam.getD "N/A") ∧
    (process_team_one env team).map TeamRecord.deporte
        = some (ti.strSport.getD "N/A") ∧
    (process_team_one env team).map TeamRecord.liga
        = some (ti.strLeague.getD "N/A") ∧
    (process_team_one env team).map TeamRecord.anioFundacion
        = some (ti.intFormedYear.getD "N/A") ∧
    (process_team_one env team).map TeamRecord.estadio
        = some (ti.strStadium.getD "N/A") := by
  obtain ⟨des, res, hb⟩ := process_team_body_fields env team ti rest d hf hd hne
  unfold process_team_one
  rw [hb]
  exact ⟨rfl, rfl, rfl, rfl, rfl⟩

/-- C4 witness: a concrete API answer with two fields absent. -/
theorem claim_C4_witness :
    (process_team_one envFetch "Arsenal").map TeamRecord.equipo
        = some (tiArsenal.strTeam.getD "N/A") ∧
    (process_team_one envFetch "Arsenal").map TeamRecord.deporte
        = some (tiArsenal.strSport.getD "N/A") ∧
    (process_team_one envFetch "Arsenal").map TeamRecord.liga
        = some (tiArsenal.strLeague.getD "N/A") ∧
    (process_team_one envFetch "Arsenal").map TeamRecord.anioFundacion
        = some (tiArsenal.intFormedYear.getD "N/A") ∧
    (process_team_one envFetch "Arsenal").map TeamRecord.estadio
        = some (tiArsenal.strStadium.getD "N/A") :=
  claim_C4 envFetch "Arsenal" tiArsenal [] "Arsenal Football Club is a club."
    rfl rfl (by decide)

/-- C5 (confirmed): a team whose iteration fails or is skipped — HTTP
failure, no match, missing/blank description, or an exception inside
the per-team body — contributes nothing to the output and does not
disturb the processing of the teams before or after it; `process_teams`
itself is total (no exception escapes the per-team `try`). -/
theorem claim_C5 (env : Env) (xs : List String) (t : String) (ys : List String)
    (h : process_team_one env t = none) :
    process_teams env (xs ++ t :: ys)
      = process_teams env xs ++ process_teams env ys := by
  rw [process_teams_append, process_teams_cons, h]

/-- C5 witness: the unknown team "Bad" drops out of the middle of a
concrete run. -/
theorem claim_C5_witness :
    process_teams envFetch (["Arsenal"] ++ "Bad" :: ["Chelsea"])
      = process_teams envFetch ["Arsenal"] ++ process_teams envFetch ["Chelsea"] :=
  claim_C5 envFetch ["Arsenal"] "Bad" ["Chelsea"] rfl

/-- C6 (confirmed): for nonempty input, when googletrans is unavailable
or raises, and OpenAI is unconfigured or raises, `translate_text`
returns its input unchanged. -/
theorem claim_C6 (env : Env) (text dest : String) (h0 : ¬ text = "")
    (h1 : env.translator_available = true →
      ∃ e, env.googletrans text dest = Except.error e)
    (h2 : (env.use_openai && env.ai_client_present) = true →
      ∃ e, env.openai_translate text = Except.error e) :
    (translate_text env text dest).1 = Except.ok text := by
  unfold translate_text
  by_cases ht : env.translator_available
  · obtain ⟨e, he⟩ := h1 ht
    by_cases ho : env.use_openai && env.ai_client_present
    · obtain ⟨e', he'⟩ := h2 ho
      simp [h0, ht, he, ho, he']
    · simp [h0, ht, he, ho]
  · by_cases ho : env.use_openai && env.ai_client_present
    · obtain ⟨e', he'⟩ := h2 ho
      simp [h0, ht, he', ho]
    · simp [h0, ht, ho]

/-- C6 witness: with neither backend available, "Hello" comes back
unchanged. -/
theorem claim_C6_witness :
    (translate_text envBase "Hello" "es").1 = Except.ok "Hello" :=
  claim_C6 envBase "Hello" "es" (by decide)
    (fun h => absurd h (by decide)) (fun h => absurd h (by decide))

/-- C7 (confirmed): the pipeline's output is exactly the input list
filtered down to the successfully processed teams, in input order. -/
theorem claim_C7 (env : Env) (teams : List String) :
    process_teams env teams = teams.filterMap (process_team_one env) :=
  process_teams_filterMap env teams

/-- C8 (confirmed): whatever the backends do — including always
raising — the Translator and the Summarizer both return a string and
never propagate an exception. -/
theorem claim_C8 (env : Env) (text dest : String) (wl : Nat) :
    (translate_text env text dest).1.isOk = true ∧
    (summarize_pipeline env text wl).isOk = true := by
  constructor
  · obtain ⟨s, eff, h⟩ := translate_text_ok env text dest
    rw [h]
    rfl
  · obtain ⟨s, h⟩ := summarize_pipeline_ok env text wl
    rw [h]
    rfl

/-- C9 (confirmed): an empty record sequence produces only the
"nothing to save" log line — no directory creation, no file write. -/
theorem claim_C9 (env : Env) (path : String) :
    save_to_csv env [] path
      = (Except.ok (), [FsEffect.print_msg "No rows to save."]) := rfl

/-- C10, amended.  As frozen the claim is false at `wordLimit = 0`
(truncation then returns `"..."`, one token, not zero) — see
`claim_C10_counterexample`.  Amended to `wordLimit ≥ 1`: when the
candidate has more than `wordLimit` words, the marker is concatenated
directly onto the `wordLimit`-th word with no separating space
(`appendToLastStr`), the result splits into exactly `wordLimit`
whitespace-separated tokens, and it ends with `"..."`. -/
theorem claim_C10_amended (c : String) (wl : Nat) (h1 : 1 ≤ wl)
    (hc : wl < countWords c) :
    pySplit (truncate_words c wl)
        = appendToLastStr "..." ((pySplit c).take wl) ∧
    (pySplit (truncate_words c wl)).length = wl ∧
    strEndsWith (truncate_words c wl) "..." :=
  ⟨truncate_words_split hc, truncate_words_count_of_lt h1 hc,
    truncate_words_endsWith hc⟩

/-- C10 counterexample: at `wordLimit = 0` a truncated result still has
one token. -/
theorem claim_C10_counterexample :
    0 < countWords "a b" ∧ (pySplit (truncate_words "a b" 0)).length ≠ 0 := by
  decide

/-- C10 witness: truncating a four-word candidate to two words. -/
theorem claim_C10_witness :
    pySplit (truncate_words "aa bb cc dd" 2)
        = appendToLastStr "..." ((pySplit "aa bb cc dd").take 2) ∧
    (pySplit (truncate_words "aa bb cc dd" 2)).length = 2 ∧
    strEndsWith (truncate_words "aa bb cc dd" 2) "..." :=
  claim_C10_amended "aa bb cc dd" 2 (by decide) (by decide)

end Deportivo
